import Mathlib

/-!
Shallow embedding of the zcoin wallet client core (`src/lib/client/api.js`).

The client talks to three external collaborators that are not part of the
source under verification: the storage backend, the HTTP transport, and the
crypto / verification library (`bitcore`, `walletutils`, `verifier`).  These
are modelled as explicit parameters:

* `Crypto` bundles the pure crypto primitives the client calls
  (`WalletUtils.signMessage`, HD key derivation, `xPubToCopayerId`, ...);
  they are kept fully abstract (arbitrary functions), since only the wiring
  of `api.js` is under verification.
* `Env` bundles the per-call oracle data: the server's canned responses for
  each endpoint, the result of `storage.save`, the `Verifier.*` predicates,
  fresh randomness (`new Bitcore.PrivateKey()` / `new Bitcore.HDPrivateKey`),
  and the crypto bundle.
* Storage contents are an explicit `Option WalletData` argument.

JavaScript `undefined`-able fields become `Option`; JS truthiness of numbers
and strings is modelled by `truthyNat` / `truthyOptStr`.  Each operation
returns its callback result (`JsRes`, where `thrown` marks an uncaught JS
runtime exception) together with the trace of externally visible effects
(`Event`): requests issued and `storage.save` calls.
-/

namespace ZcoinWallet

/-- A minimal JSON value model for request bodies (`JSON.stringify(args)`). -/
inductive Json where
  | null
  | str (s : String)
  | num (n : Nat)
  | arr (xs : List Json)
  | obj (fs : List (String × Json))

mutual

/-- Models `JSON.stringify` on values whose strings need no escaping. -/
def Json.stringify : Json → String
  | .null => "null"
  | .str s => "\x22" ++ s ++ "\x22"
  | .num n => toString n
  | .arr xs => "[" ++ Json.stringifyList xs ++ "]"
  | .obj fs => "\x7b" ++ Json.stringifyFields fs ++ "\x7d"

def Json.stringifyList : List Json → String
  | [] => ""
  | [x] => Json.stringify x
  | x :: y :: xs => Json.stringify x ++ "," ++ Json.stringifyList (y :: xs)

def Json.stringifyFields : List (String × Json) → String
  | [] => ""
  | [(k, v)] => "\x22" ++ k ++ "\x22:" ++ Json.stringify v
  | (k, v) :: f :: fs =>
      "\x22" ++ k ++ "\x22:" ++ Json.stringify v ++ "," ++ Json.stringifyFields (f :: fs)

end

/-- One entry of `wallet.copayers` as returned by the server. -/
structure SvCopayer where
  xPubKey : String
deriving DecidableEq

/-- The `ret.wallet` object read by `_tryToComplete`. -/
structure SvWallet where
  status : String
  copayers : List SvCopayer
deriving DecidableEq

/-- One entry of `txp.actions`. -/
structure TxpAction where
  copayerId : String
  type : String
  comment : Option String
deriving DecidableEq

/-- One entry of `txp.inputs`. -/
structure TxpInput where
  path : String
  publicKeys : List String
deriving DecidableEq

/-- The `txp.changeAddress` object (only `.address` is read). -/
structure ChangeAddress where
  address : String
deriving DecidableEq

/-- A transaction proposal as received from the server. -/
structure Txp where
  id : String
  creatorId : String
  toAddress : String
  amount : Nat
  changeAddress : ChangeAddress
  requiredSignatures : Nat
  inputs : List TxpInput
  message : Option String
  encryptedMessage : Option String
  actions : List TxpAction
deriving DecidableEq

/-- An address record as returned by the server. -/
structure AddressRecord where
  address : String
  path : String
deriving DecidableEq

/-- Body of a 200 response from `GET /v1/wallets/`. -/
structure WalletsBody where
  wallet : SvWallet
  pendingTxps : List Txp
deriving DecidableEq

/-- Body of a 200 response from `POST /v1/wallets/`. -/
structure CreateBody where
  walletId : String
deriving DecidableEq

/-- `wallet.m` / `wallet.n` of the wallet object in a join response. -/
structure MNBody where
  m : Option Nat
  n : Option Nat
deriving DecidableEq

/-- Body of a 200 response from `POST .../copayers`. -/
structure JoinBody where
  wallet : MNBody
deriving DecidableEq

/-- The locally stored wallet state (the `data` object of `api.js`).
`Option` marks fields that can be `undefined` in JS. -/
structure WalletData where
  copayerId : Option String
  xPrivKey : Option String
  publicKeyRing : Option (List String)
  network : Option String
  m : Option Nat
  n : Option Nat
  roPrivKey : Option String
  rwPrivKey : Option String
  walletPrivKey : Option String
  sharedEncryptingKey : Option String
deriving DecidableEq

/-- Decoded wallet secret (`WalletUtils.fromSecret`). -/
structure SecretData where
  walletId : String
  walletPrivKey : String
  network : String
deriving DecidableEq

/-- One element of the list returned by bitcore's `Transaction#getSignatures`:
an input index together with the (abstract) signature object. -/
structure SigObj where
  inputIndex : Nat
  signature : String
deriving DecidableEq

/-- The data fed into the unsigned `Bitcore.Transaction` built by
`signTxProposal` (`t.from(...)`, `t.to(...)`, `.change(...)`). -/
structure TxDef where
  inputs : List TxpInput
  requiredSignatures : Nat
  toAddress : String
  amount : Nat
  changeAddress : String
deriving DecidableEq

/-- A non-200 response body: either a raw string or an object of which only
`.code` and `.error` are read by `_parseError`. -/
inductive ErrBody where
  | str (s : String)
  | obj (code : Option String) (error : Option String)
deriving DecidableEq

/-- Errors passed to callbacks.  `stringErr` models the plain JS string
errors, `serverError` a structured error produced by `_parseError`,
`transport` a transport-level error object, `serverCompromised` a
`ServerCompromisedError`. -/
inductive ApiError where
  | stringErr (s : String)
  | transport (s : String)
  | serverError (code : String) (message : String)
  | serverCompromised (message : String)
deriving DecidableEq

/-- Externally visible effects of an operation. -/
inductive Event where
  | get (url : String)
  | post (url : String)
  | del (url : String)
  | save (d : WalletData)
deriving DecidableEq

/-- Result of an operation's callback; `thrown` marks an uncaught JS runtime
exception (the callback never fires). -/
inductive JsRes (α : Type) where
  | thrown (msg : String)
  | err (e : ApiError)
  | ok (v : α)
deriving DecidableEq

/-- `true` iff the result is an error callback. -/
def JsRes.isErr {α : Type} : JsRes α → Bool
  | .err _ => true
  | _ => false

/-- A canned transport-level outcome for one request: either a network error
or a response carrying a status code, the body as parsed on success, and the
raw body as fed to `_parseError` on failure. -/
inductive SvResp (β : Type) where
  | transportErr (e : String)
  | resp (statusCode : Nat) (okBody : β) (rawBody : ErrBody)

/-- Outcome of `_doRequest`'s response handling, as seen by the callback. -/
inductive ReqOut (β : Type) where
  | err (e : ApiError)
  | ok (b : β)
deriving DecidableEq

/-- One element of the exported array (`JSON.stringify(v)` / `JSON.parse`). -/
inductive ExportVal where
  | nullv
  | str (s : String)
  | num (k : Nat)
  | strList (xs : List String)
deriving DecidableEq

/-- The `opts.access` argument of `export`. -/
inductive Access where
  | full
  | readonly
  | readwrite
deriving DecidableEq

/-- Abstract crypto primitives (bitcore / walletutils), kept opaque: only the
wiring in `api.js` is under verification. -/
structure Crypto where
  signMessage : String → String → String
  xPubOf : String → String
  xPubToCopayerId : String → String
  deriveWIF : String → String → String
  derivePriv : String → String → String
  privToWIF : String → String
  sharedKeyOf : String → String
  encryptMessage : String → Option String → String
  decryptMessage : String → Option String → Option String
  getProposalHash : String → Nat → Option String → String
  toDerHex : String → String
  jsonParse : String → Option (Option String × Option String)
  fromSecret : String → Option SecretData
  toSecret : String → String → String → String

/-- Per-call oracle: canned server responses, verifier verdicts, storage save
outcome, fresh randomness, and the crypto bundle. -/
structure Env where
  crypto : Crypto
  baseUrl : String
  basePath : String
  storageName : String
  freshXPrivKey : String
  freshWalletPrivKey : String
  saveErr : Option String
  checkCopayers : List SvCopayer → Option String → Option String → Option Nat → Bool
  checkAddress : WalletData → AddressRecord → Bool
  checkTxProposal : WalletData → Txp → Bool
  getSignatures : TxDef → String → List SigObj
  walletsResp : SvResp WalletsBody
  balanceResp : SvResp Unit
  addressesResp : SvResp (List AddressRecord)
  txpsResp : SvResp (List Txp)
  postResp : SvResp Unit
  createResp : SvResp CreateBody
  joinResp : SvResp JoinBody

/-- JS truthiness of an optional number (`undefined`, `0` falsy). -/
def truthyNat : Option Nat → Bool
  | some k => k != 0
  | none => false

/-- JS truthiness of an optional string (`undefined`, `''` falsy). -/
def truthyOptStr : Option String → Bool
  | some s => s != ""
  | none => false

/-- `x || d` for an optional string (JS falsy fallback). -/
def orTruthy (x : Option String) (d : String) : String :=
  match x with
  | some s => if s = "" then d else s
  | none => d

/-- `data.n > 1` (JS: `undefined > 1` is false). -/
def nGt1 (d : WalletData) : Bool :=
  match d.n with
  | some k => decide (1 < k)
  | none => false

/-- `data.publicKeyRing && data.m && data.publicKeyRing.length === data.n`. -/
def pkrComplete (d : WalletData) : Bool :=
  d.publicKeyRing.isSome && truthyNat d.m &&
    (match d.publicKeyRing, d.n with
     | some r, some k => r.length == k
     | _, _ => false)

/-- `_parseError(body)`: extract `{code, message}` from a non-200 body,
with generic defaults when unparseable. -/
def parseError (c : Crypto) (body : ErrBody) : ApiError :=
  let fields : Option String × Option String :=
    match body with
    | .str s =>
      match c.jsonParse s with
      | some f => f
      | none => (none, some s)
    | .obj code error => (code, error)
  .serverError (orTruthy fields.1 "ERROR")
    (orTruthy fields.2 "There was an unknown error processing the request")

/-- `_doRequest`'s response handling: transport error surfaced, non-200
parsed by `_parseError`, 200 delivered to the callback. -/
def doRequestOutcome {β : Type} (c : Crypto) (resp : SvResp β) : ReqOut β :=
  match resp with
  | .transportErr e => .err (.transport e)
  | .resp statusCode okBody rawBody =>
    if statusCode != 200 then .err (parseError c rawBody) else .ok okBody

/-- `_signRequest(method, url, args, privKey)`. -/
def signRequest (c : Crypto) (method url : String) (args : Json) (privKey : String) : String :=
  c.signMessage (method.toLower ++ "|" ++ url ++ "|" ++ Json.stringify args) privKey

/-- The outbound request object built by `_doRequest`. -/
structure OutRequest where
  method : String
  url : String
  relUrl : String
  xIdentity : Option String
  xSignature : Option String
  body : Json

/-- The request-construction half of `_doRequest`: key selection (`get` uses
`roPrivKey`, everything else `rwPrivKey`), signing, and header assembly; a
missing key leaves `x-signature` undefined but the request is still built. -/
def doRequestBuild (c : Crypto) (baseUrl basePath method url : String) (args : Json)
    (data : WalletData) : OutRequest :=
  let reqSignature : Option String :=
    if method = "get" then data.roPrivKey.map (signRequest c method url args)
    else data.rwPrivKey.map (signRequest c method url args)
  { method := method
    url := baseUrl ++ url
    relUrl := basePath ++ url
    xIdentity := data.copayerId
    xSignature := reqSignature
    body := args }

/-- `_decryptMessage`: empty/absent input yields `''`; a decryption failure
yields the sentinel instead of throwing. -/
def decryptMessageJs (c : Crypto) (message : Option String) (key : Option String) : String :=
  match message with
  | none => ""
  | some s =>
    if s = "" then ""
    else
      match c.decryptMessage s key with
      | some t => t
      | none => "<ECANNOTDECRYPT>"

/-- `_encryptMessage`: falsy input yields `null`. -/
def encryptMessageJs (c : Crypto) (message : Option String) (key : Option String) :
    Option String :=
  match message with
  | none => none
  | some s => if s = "" then none else some (c.encryptMessage s key)

/-- `_processTxps` on a single proposal: stash the ciphertext in
`encryptedMessage` and decrypt `message` and every action comment. -/
def processTxp (c : Crypto) (key : Option String) (txp : Txp) : Txp :=
  { txp with
    encryptedMessage := txp.message
    message := some (decryptMessageJs c txp.message key)
    actions := txp.actions.map fun a => { a with comment := some (decryptMessageJs c a.comment key) } }

/-- `_initData(network, walletPrivKey, m, n)`: fresh master key, fixed-path
read-only / read-write keys, shared encrypting key, copayer id. -/
def initData (env : Env) (network : String) (walletPrivKey : String) (m n : Option Nat) :
    WalletData :=
  let xPrivKey := env.freshXPrivKey
  let xPubKey := env.crypto.xPubOf xPrivKey
  { copayerId := some (env.crypto.xPubToCopayerId xPubKey)
    xPrivKey := some xPrivKey
    publicKeyRing := some [xPubKey]
    network := some network
    m := m
    n := n
    roPrivKey := some (env.crypto.deriveWIF xPrivKey "m/1/0")
    rwPrivKey := some (env.crypto.deriveWIF xPrivKey "m/1/1")
    walletPrivKey := some (env.crypto.privToWIF walletPrivKey)
    sharedEncryptingKey := some (env.crypto.sharedKeyOf walletPrivKey) }

/-- Outcome of `_load` / `_loadAndCheck`: the wallet data handed to the
operation, or a failure, together with the effect trace so far. -/
inductive LCOut where
  | fail (e : ApiError) (events : List Event)
  | ok (data : WalletData) (events : List Event)
deriving DecidableEq

/-- `_tryToComplete(data, cb)`: fetch the wallet, require server-side
completeness, verify the copayer list, adopt and persist the returned ring. -/
def tryToComplete (env : Env) (data : WalletData) : LCOut :=
  let fetch := [Event.get "/v1/wallets/"]
  match doRequestOutcome env.crypto env.walletsResp with
  | .err e => .fail e fetch
  | .ok ret =>
    let wallet := ret.wallet
    if wallet.status ≠ "complete" then .fail (.stringErr "Wallet Incomplete") fetch
    else if env.checkCopayers wallet.copayers data.walletPrivKey data.xPrivKey data.n then
      let data1 := { data with
        publicKeyRing := some (wallet.copayers.map fun c => c.xPubKey) }
      match env.saveErr with
      | some e => .fail (.stringErr e) (fetch ++ [.save data1])
      | none => .ok data1 (fetch ++ [.save data1])
    else
      .fail (.serverCompromised
        "Copayers in the wallet could not be verified to have known the wallet secret") fetch

/-- `_loadAndCheck(cb)`: load the wallet; when `n > 1` and the stored state
is not complete, run the repair flow. -/
def loadAndCheck (env : Env) (storage : Option WalletData) : LCOut :=
  match storage with
  | none => .fail (.stringErr "Wallet file not found.") []
  | some data =>
    if nGt1 data && !pkrComplete data then tryToComplete env data
    else .ok data []

/-- Generic operation result: the callback outcome plus the effect trace. -/
structure OpRes (α : Type) where
  res : JsRes α
  events : List Event
deriving DecidableEq

/-- `getStatus(cb)`: note the callback runs `_processTxps(result.pendingTxps, ..)`
before inspecting `err`, so an error response (where `result` is `undefined`)
raises a TypeError instead of surfacing the error. -/
def getStatus (env : Env) (storage : Option WalletData) :
    OpRes (WalletsBody × Option String) :=
  match storage with
  | none => ⟨.err (.stringErr "Wallet file not found."), []⟩
  | some data =>
    match doRequestOutcome env.crypto env.walletsResp with
    | .err _ =>
      ⟨.thrown "TypeError: cannot read pendingTxps of undefined", [.get "/v1/wallets/"]⟩
    | .ok result =>
      let processed := { result with
        pendingTxps := result.pendingTxps.map (processTxp env.crypto data.sharedEncryptingKey) }
      ⟨.ok (processed, data.copayerId), [.get "/v1/wallets/"]⟩

/-- `getBalance(cb)`. -/
def getBalance (env : Env) (storage : Option WalletData) : OpRes Unit :=
  match loadAndCheck env storage with
  | .fail e evs => ⟨.err e, evs⟩
  | .ok _data evs =>
    match doRequestOutcome env.crypto env.balanceResp with
    | .err e => ⟨.err e, evs ++ [.get "/v1/balance/"]⟩
    | .ok b => ⟨.ok b, evs ++ [.get "/v1/balance/"]⟩

/-- `getMainAddresses(opts, cb)`. -/
def getMainAddresses (env : Env) (storage : Option WalletData) (doNotVerify : Bool) :
    OpRes (List AddressRecord) :=
  match loadAndCheck env storage with
  | .fail e evs => ⟨.err e, evs⟩
  | .ok data evs =>
    match doRequestOutcome env.crypto env.addressesResp with
    | .err e => ⟨.err e, evs ++ [.get "/v1/addresses/"]⟩
    | .ok addresses =>
      if !doNotVerify && addresses.any (fun a => !(env.checkAddress data a)) then
        ⟨.err (.serverCompromised "Server sent fake address"), evs ++ [.get "/v1/addresses/"]⟩
      else ⟨.ok addresses, evs ++ [.get "/v1/addresses/"]⟩

/-- `getTxProposals(opts, cb)` (without the `getRawTxps` copy). -/
def getTxProposals (env : Env) (storage : Option WalletData) (doNotVerify : Bool) :
    OpRes (List Txp) :=
  match loadAndCheck env storage with
  | .fail e evs => ⟨.err e, evs⟩
  | .ok data evs =>
    match doRequestOutcome env.crypto env.txpsResp with
    | .err e => ⟨.err e, evs ++ [.get "/v1/txproposals/"]⟩
    | .ok txps =>
      let txps := txps.map (processTxp env.crypto data.sharedEncryptingKey)
      if txps.any (fun txp => !doNotVerify && !(env.checkTxProposal data txp)) then
        ⟨.err (.serverCompromised "Server sent fake transaction proposal"),
          evs ++ [.get "/v1/txproposals/"]⟩
      else ⟨.ok txps, evs ++ [.get "/v1/txproposals/"]⟩

/-- The body `args` of `sendTxProposal`'s POST, as a JSON object. -/
def proposalArgsJson (toAddress : String) (amount : Nat) (msgCt : Option String)
    (propSig : String) : Json :=
  .obj [("toAddress", .str toAddress), ("amount", .num amount),
        ("message", match msgCt with | none => .null | some s => .str s),
        ("proposalSignature", .str propSig)]

/-- Result of `sendTxProposal`: callback outcome, effect trace, and the full
outbound request (when a request was made at all). -/
structure SendRes where
  res : JsRes Unit
  events : List Event
  posted : Option OutRequest

/-- `sendTxProposal(opts, cb)`: requires `rwPrivKey`; encrypts the message,
hashes `(toAddress, amount, ciphertext)`, signs the hash with `rwPrivKey` as
`proposalSignature`, and POSTs (which adds the request-level signature). -/
def sendTxProposal (env : Env) (storage : Option WalletData) (toAddress : String)
    (amount : Nat) (message : Option String) : SendRes :=
  match loadAndCheck env storage with
  | .fail e evs => ⟨.err e, evs, none⟩
  | .ok data evs =>
    match data.rwPrivKey with
    | none => ⟨.err (.stringErr "No key to generate proposals"), evs, none⟩
    | some rk =>
      let msgCt := encryptMessageJs env.crypto message data.sharedEncryptingKey
      let hash := env.crypto.getProposalHash toAddress amount msgCt
      let propSig := env.crypto.signMessage hash rk
      let args := proposalArgsJson toAddress amount msgCt propSig
      let req := doRequestBuild env.crypto env.baseUrl env.basePath "post" "/v1/txproposals/"
        args data
      let res : JsRes Unit :=
        match doRequestOutcome env.crypto env.postResp with
        | .err e => .err e
        | .ok _ => .ok ()
      ⟨res, evs ++ [.post "/v1/txproposals/"], some req⟩

/-- Relation by which the flattened signatures are sorted (`_.sortBy(.., 'inputIndex')`). -/
def sigLE (a b : SigObj) : Prop := a.inputIndex ≤ b.inputIndex

instance : DecidableRel sigLE := fun a b => Nat.decLe a.inputIndex b.inputIndex

instance : IsTotal SigObj sigLE := ⟨fun a b => Nat.le_total a.inputIndex b.inputIndex⟩

instance : IsTrans SigObj sigLE := ⟨fun _ _ _ h h' => Nat.le_trans h h'⟩

/-- First-occurrence deduplication: the order in which `signTxProposal`'s
`derived` memo table performs derivations over the inputs' paths. -/
def uniqueFirst (paths : List String) : List String :=
  paths.foldl (fun acc p => if p ∈ acc then acc else acc ++ [p]) []

/-- The private keys pushed onto `privs`, one per unique input path. -/
def signPrivs (env : Env) (data : WalletData) (txp : Txp) : List String :=
  (uniqueFirst (txp.inputs.map fun i => i.path)).map
    (env.crypto.derivePriv (data.xPrivKey.getD env.freshXPrivKey))

/-- The unsigned transaction assembled by `signTxProposal`. -/
def signTxDef (txp : Txp) : TxDef :=
  ⟨txp.inputs, txp.requiredSignatures, txp.toAddress, txp.amount, txp.changeAddress.address⟩

/-- `_.flatten(signatures)`: one `getSignatures` call per derived key. -/
def signFlat (env : Env) (data : WalletData) (txp : Txp) : List SigObj :=
  ((signPrivs env data txp).map (env.getSignatures (signTxDef txp))).flatten

/-- Result of `signTxProposal`: callback outcome, effect trace, the paths for
which a key was derived, the sorted signature objects, the DER-hex strings
submitted, and the submission request. -/
structure SignRes where
  res : JsRes Unit
  events : List Event
  derivedPaths : List String
  sortedSigObjs : List SigObj
  signedSigs : List String
  posted : Option (String × List String)

/-- `signTxProposal(txp, cb)`: verify via `Verifier.checkTxProposal` first;
on success derive one key per unique input path, sign, sort the flattened
signatures by ascending input index, and submit them. -/
def signTxProposal (env : Env) (storage : Option WalletData) (txp : Txp) : SignRes :=
  if txp.creatorId = "" then
    ⟨.thrown "checkArgument: txp.creatorId", [], [], [], [], none⟩
  else
    match loadAndCheck env storage with
    | .fail e evs => ⟨.err e, evs, [], [], [], none⟩
    | .ok data evs =>
      if env.checkTxProposal data txp then
        let derivedPaths := uniqueFirst (txp.inputs.map fun i => i.path)
        let sorted := List.insertionSort sigLE (signFlat env data txp)
        let sigs := sorted.map fun s => env.crypto.toDerHex s.signature
        let url := "/v1/txproposals/" ++ txp.id ++ "/signatures/"
        let res : JsRes Unit :=
          match doRequestOutcome env.crypto env.postResp with
          | .err e => .err e
          | .ok _ => .ok ()
        ⟨res, evs ++ [.post url], derivedPaths, sorted, sigs, some (url, sigs)⟩
      else
        ⟨.err (.serverCompromised "Server sent fake transaction proposal"),
          evs, [], [], [], none⟩

/-- `undefined` (out-of-range / absent field) serialized into the export
array becomes JSON `null`. -/
def optStrVal : Option String → ExportVal
  | none => .nullv
  | some s => .str s

def optNatVal : Option Nat → ExportVal
  | none => .nullv
  | some k => .num k

def ExportVal.asStr : ExportVal → Option String
  | .str s => some s
  | _ => none

def ExportVal.asNat : ExportVal → Option Nat
  | .num k => some k
  | _ => none

def ExportVal.asList : ExportVal → Option (List String)
  | .strList xs => some xs
  | _ => none

/-- Result of `export`. -/
structure ExportRes where
  res : JsRes (List ExportVal)
  events : List Event

/-- `export(opts, cb)`: serialize `WALLET_CRITICAL_DATA` in order
(`xPrivKey`, `m`, `publicKeyRing`, `sharedEncryptingKey`); for `full` access
the own xpub is removed from the ring, for other access levels the master key
is replaced by `null` and identity + read keys are appended. -/
def exportOp (env : Env) (storage : Option WalletData) (access : Access) : ExportRes :=
  match loadAndCheck env storage with
  | .fail e evs => ⟨.err e, evs⟩
  | .ok data evs =>
    match data.xPrivKey with
    | none => ⟨.thrown "TypeError: HDPublicKey of undefined", evs⟩
    | some xk =>
      let myXPubKey := env.crypto.xPubOf xk
      let ringVal : ExportVal :=
        match data.publicKeyRing with
        | none => .nullv
        | some r => .strList (if access = .full then r.filter (fun x => x ≠ myXPubKey) else r)
      let base : List ExportVal :=
        [if access = .full then ExportVal.str xk else ExportVal.nullv,
         optNatVal data.m, ringVal, optStrVal data.sharedEncryptingKey]
      let v :=
        if access = .full then base
        else base ++ [optStrVal data.copayerId, optStrVal data.roPrivKey] ++
          (if access = .readwrite then [optStrVal data.rwPrivKey] else [])
      ⟨.ok v, evs⟩

/-- Result of `import`: the saved wallet state on success. -/
structure ImportRes where
  res : JsRes WalletData
  events : List Event
deriving DecidableEq

/-- Tail of `import`: validation (`!copayerId || !n || !m`), network
detection from the first ring entry, and the save. -/
def importFinish (env : Env) (d : WalletData) (ring : List String) : ImportRes :=
  if !truthyOptStr d.copayerId || ring.length == 0 || !truthyNat d.m then
    ⟨.err (.stringErr "Invalid source data"), []⟩
  else
    match ring with
    | [] => ⟨.thrown "TypeError: substr of undefined", []⟩
    | x :: _ =>
      let d1 := { d with
        network := some (if x.take 4 = "tpub" then "testnet" else "livenet") }
      match env.saveErr with
      | some e => ⟨.err (.stringErr e), [.save d1]⟩
      | none => ⟨.ok d1, [.save d1]⟩

/-- `import(str, cb)`: refuse when storage already holds a wallet; read the
fixed field list; when a master key is present, re-derive the own xpub
(unshifted first into the ring), copayer id, and read keys; set `n` to the
ring length; validate and save. -/
def importData (env : Env) (storage : Option WalletData) (inData : List ExportVal) :
    ImportRes :=
  match storage with
  | some _ => ⟨.err (.stringErr "Storage already contains a wallet"), []⟩
  | none =>
    let xPrivKey0 := (inData.getD 0 .nullv).asStr
    let m0 := (inData.getD 1 .nullv).asNat
    let ring0 := (inData.getD 2 .nullv).asList
    let shared0 := (inData.getD 3 .nullv).asStr
    let cid0 := (inData.getD 4 .nullv).asStr
    let ro0 := (inData.getD 5 .nullv).asStr
    let rw0 := (inData.getD 6 .nullv).asStr
    if truthyOptStr xPrivKey0 then
      match xPrivKey0, ring0 with
      | some xk, some r0 =>
        let xPubKey := env.crypto.xPubOf xk
        let ring := xPubKey :: r0
        let d : WalletData :=
          { copayerId := some (env.crypto.xPubToCopayerId xPubKey)
            xPrivKey := some xk
            publicKeyRing := some ring
            network := none
            m := m0
            n := some ring.length
            roPrivKey := some (env.crypto.deriveWIF xk "m/1/0")
            rwPrivKey := some (env.crypto.deriveWIF xk "m/1/1")
            walletPrivKey := none
            sharedEncryptingKey := shared0 }
        importFinish env d ring
      | _, none => ⟨.thrown "TypeError: unshift of undefined", []⟩
      | none, _ => ⟨.thrown "unreachable", []⟩
    else
      match ring0 with
      | none => ⟨.thrown "TypeError: length of undefined", []⟩
      | some r0 =>
        let d : WalletData :=
          { copayerId := cid0
            xPrivKey := xPrivKey0
            publicKeyRing := some r0
            network := none
            m := m0
            n := some r0.length
            roPrivKey := ro0
            rwPrivKey := rw0
            walletPrivKey := none
            sharedEncryptingKey := shared0 }
        importFinish env d r0

/-- Result of `createWallet`: the wallet secret (for `n > 1`) on success. -/
structure CreateRes where
  res : JsRes (Option String)
  events : List Event
deriving DecidableEq

/-- `createWallet(walletName, copayerName, m, n, network, cb)`. -/
def createWallet (env : Env) (storage : Option WalletData)
    (m n : Nat) (network : String) : CreateRes :=
  let network := if network = "" then "livenet" else network
  if network ∉ ["testnet", "livenet"] then ⟨.err (.stringErr "Invalid network"), []⟩
  else
    match storage with
    | some _ => ⟨.err (.stringErr (env.storageName ++ " already contains a wallet")), []⟩
    | none =>
      let walletPrivKey := env.freshWalletPrivKey
      match doRequestOutcome env.crypto env.createResp with
      | .err e => ⟨.err e, [.post "/v1/wallets/"]⟩
      | .ok body =>
        let walletId := body.walletId
        let secret := env.crypto.toSecret walletId walletPrivKey network
        let data := initData env network walletPrivKey (some m) (some n)
        let joinUrl := "/v1/wallets/" ++ walletId ++ "/copayers"
        match doRequestOutcome env.crypto env.joinResp with
        | .err e => ⟨.err e, [.post "/v1/wallets/", .post joinUrl]⟩
        | .ok _ =>
          match env.saveErr with
          | some e =>
            ⟨.err (.stringErr e), [.post "/v1/wallets/", .post joinUrl, .save data]⟩
          | none =>
            ⟨.ok (if 1 < n then some secret else none),
              [.post "/v1/wallets/", .post joinUrl, .save data]⟩

/-- `joinWallet(secret, copayerName, cb)`. -/
def joinWallet (env : Env) (storage : Option WalletData) (secret : String) :
    OpRes Unit :=
  match storage with
  | some _ => ⟨.err (.stringErr "Storage already contains a wallet"), []⟩
  | none =>
    match env.crypto.fromSecret secret with
    | none => ⟨.err (.stringErr "Invalid secret"), []⟩
    | some sd =>
      let data := initData env sd.network sd.walletPrivKey none none
      let joinUrl := "/v1/wallets/" ++ sd.walletId ++ "/copayers"
      match doRequestOutcome env.crypto env.joinResp with
      | .err e => ⟨.err e, [.post joinUrl]⟩
      | .ok body =>
        let data := { data with m := body.wallet.m, n := body.wallet.n }
        match env.saveErr with
        | some e => ⟨.err (.stringErr e), [.post joinUrl, .save data]⟩
        | none => ⟨.ok (), [.post joinUrl, .save data]⟩

/-! ### Concrete instantiations used to exercise the embedding -/

/-- A concrete, injective-by-construction crypto bundle for evaluation. -/
def testCrypto : Crypto :=
  { signMessage := fun m k => "sig[" ++ m ++ ";" ++ k ++ "]"
    xPubOf := fun s => "xpub-" ++ s
    xPubToCopayerId := fun s => "cid-" ++ s
    deriveWIF := fun xk p => "wif-" ++ xk ++ "-" ++ p
    derivePriv := fun xk p => "priv-" ++ xk ++ "-" ++ p
    privToWIF := fun k => "wif-" ++ k
    sharedKeyOf := fun k => "shared-" ++ k
    encryptMessage := fun m _ => "enc-" ++ m
    decryptMessage := fun m _ => some ("dec-" ++ m)
    getProposalHash := fun a n m => "hash-" ++ a ++ "-" ++ toString n ++ "-" ++ m.getD "null"
    toDerHex := fun s => "der-" ++ s
    jsonParse := fun _ => none
    fromSecret := fun _ => none
    toSecret := fun a b c => a ++ ":" ++ b ++ ":" ++ c }

def okWalletsBody : WalletsBody := ⟨⟨"complete", []⟩, []⟩

/-- A baseline oracle: every server call succeeds, every check passes. -/
def testEnv : Env :=
  { crypto := testCrypto
    baseUrl := "http://localhost:3001/copay/api"
    basePath := "/copay/api"
    storageName := "store"
    freshXPrivKey := "freshX"
    freshWalletPrivKey := "freshW"
    saveErr := none
    checkCopayers := fun _ _ _ _ => true
    checkAddress := fun _ _ => true
    checkTxProposal := fun _ _ => true
    getSignatures := fun _ _ => []
    walletsResp := .resp 200 okWalletsBody (.str "")
    balanceResp := .resp 200 () (.str "")
    addressesResp := .resp 200 [] (.str "")
    txpsResp := .resp 200 [] (.str "")
    postResp := .resp 200 () (.str "")
    createResp := .resp 200 ⟨"wid"⟩ (.str "")
    joinResp := .resp 200 ⟨⟨some 2, some 3⟩⟩ (.str "") }

/-- A complete 1-of-1 wallet (no repair flow needed). -/
def soloWallet : WalletData :=
  { copayerId := some "cid-xpub-XK"
    xPrivKey := some "XK"
    publicKeyRing := some ["xpub-XK"]
    network := some "livenet"
    m := some 1
    n := some 1
    roPrivKey := some "ro"
    rwPrivKey := some "rw"
    walletPrivKey := some "wpk"
    sharedEncryptingKey := some "sek" }

/-- A 2-of-2 wallet whose ring still has only the local key (incomplete). -/
def incompleteWallet : WalletData :=
  { copayerId := some "cid-xpub-B"
    xPrivKey := some "B"
    publicKeyRing := some ["xpub-B"]
    network := some "livenet"
    m := some 2
    n := some 2
    roPrivKey := some "roB"
    rwPrivKey := some "rwB"
    walletPrivKey := some "wpk"
    sharedEncryptingKey := some "sek" }

/-- Oracle whose server reports the wallet as not yet complete. -/
def pendingEnv : Env :=
  { testEnv with walletsResp := .resp 200 ⟨⟨"pending", []⟩, []⟩ (.str "") }

/-! ### Helper lemmas -/

theorem foldl_dedup_mem (x : String) :
    ∀ (l acc : List String),
      (x ∈ l.foldl (fun acc p => if p ∈ acc then acc else acc ++ [p]) acc ↔
        x ∈ acc ∨ x ∈ l) := by
  intro l
  induction l with
  | nil => intro acc; simp
  | cons p t ih =>
    intro acc
    by_cases hp : p ∈ acc
    · simp only [List.foldl_cons, if_pos hp, ih, List.mem_cons]
      constructor
      · rintro (h | h)
        · exact Or.inl h
        · exact Or.inr (Or.inr h)
      · rintro (h | h | h)
        · exact Or.inl h
        · exact Or.inl (h ▸ hp)
        · exact Or.inr h
    · simp only [List.foldl_cons, if_neg hp, ih, List.mem_append, List.mem_singleton,
        List.mem_cons]
      tauto

theorem foldl_dedup_nodup :
    ∀ (l acc : List String), acc.Nodup →
      (l.foldl (fun acc p => if p ∈ acc then acc else acc ++ [p]) acc).Nodup := by
  intro l
  induction l with
  | nil => intro acc h; simpa using h
  | cons p t ih =>
    intro acc h
    by_cases hp : p ∈ acc
    · simpa only [List.foldl_cons, if_pos hp] using ih acc h
    · simp only [List.foldl_cons, if_neg hp]
      exact ih (acc ++ [p]) (List.nodup_append.mpr ⟨h, List.nodup_singleton p, by simpa using hp⟩)

theorem uniqueFirst_nodup (paths : List String) : (uniqueFirst paths).Nodup :=
  foldl_dedup_nodup paths [] List.nodup_nil

theorem mem_uniqueFirst (x : String) (paths : List String) :
    x ∈ uniqueFirst paths ↔ x ∈ paths := by
  simpa using foldl_dedup_mem x paths []

/-- A stable sort of signature objects whose indices are a permutation of
`range n` lists the indices as exactly `range n` (one per input, ascending). -/
theorem sorted_perm_range (l : List SigObj) (n : Nat)
    (h : (l.map fun s => s.inputIndex).Perm (List.range n)) :
    ((List.insertionSort sigLE l).map fun s => s.inputIndex) = List.range n := by
  apply List.eq_of_perm_of_sorted (r := fun a b : Nat => a ≤ b)
  · exact (((List.perm_insertionSort sigLE l).map fun s => s.inputIndex).trans h)
  · exact List.pairwise_map.mpr (List.sorted_insertionSort sigLE l)
  · exact List.sorted_le_range n

/-- Removing the unique occurrence of `a` and re-inserting it in front is a
permutation and restores the length. -/
theorem filter_of_count_one (a : String) :
    ∀ r : List String, r.count a = 1 →
      ((r.filter fun x => x ≠ a).length + 1 = r.length ∧
        (a :: r.filter fun x => x ≠ a).Perm r) := by
  intro r
  induction r with
  | nil => intro h; simp at h
  | cons b t ih =>
    intro h
    by_cases hb : b = a
    · subst hb
      have ht : t.count b = 0 := by
        have hc := List.count_cons_self b t
        omega
      have hmem : b ∉ t := List.count_eq_zero.mp ht
      have hfilter : (t.filter fun x => x ≠ b) = t := by
        apply List.filter_eq_self.mpr
        intro x hx
        simp only [ne_eq, decide_eq_true_eq]
        intro hxa
        exact hmem (hxa ▸ hx)
      have hstep : ((b :: t).filter fun x => x ≠ b) = t := by
        rw [List.filter_cons, if_neg (by simp)]
        exact hfilter
      constructor
      · rw [hstep, List.length_cons]
      · rw [hstep]
    · have hcount : t.count a = 1 := by
        rw [List.count_cons] at h
        simpa [hb, Ne.symm hb] using h
      obtain ⟨hlen, hperm⟩ := ih hcount
      have hfilter : ((b :: t).filter fun x => x ≠ a) = b :: (t.filter fun x => x ≠ a) := by
        rw [List.filter_cons, if_pos (by simp [hb])]
      constructor
      · rw [hfilter]
        simp only [List.length_cons]
        omega
      · rw [hfilter]
        exact (List.Perm.swap b a _).trans (hperm.cons b)

/-! ### Claim theorems -/

/-- C1: for every proposal that fails `Verifier.checkTxProposal` against the
locally stored wallet state, `signTxProposal` raises a `ServerCompromised`
error and produces zero signatures: no key derivation, no signing, and no
submission request occurs (fail-closed, not partial). -/
theorem signTxProposal_failClosed (env : Env) (storage : Option WalletData) (txp : Txp)
    (data : WalletData) (evs : List Event)
    (hcid : txp.creatorId ≠ "")
    (hlc : loadAndCheck env storage = .ok data evs)
    (hchk : env.checkTxProposal data txp = false) :
    signTxProposal env storage txp =
      ⟨.err (.serverCompromised "Server sent fake transaction proposal"),
        evs, [], [], [], none⟩ := by
  unfold signTxProposal
  rw [if_neg hcid, hlc]
  simp [hchk]

/-- A concrete proposal used to exercise the fail-closed branch. -/
def c1txp : Txp :=
  { id := "t1", creatorId := "c1", toAddress := "addr", amount := 5,
    changeAddress := ⟨"chg"⟩, requiredSignatures := 1,
    inputs := [⟨"m/0/0", ["pk"]⟩], message := none, encryptedMessage := none,
    actions := [] }

theorem signTxProposal_failClosed_witness :
    signTxProposal { testEnv with checkTxProposal := fun _ _ => false }
        (some soloWallet) c1txp =
      ⟨.err (.serverCompromised "Server sent fake transaction proposal"),
        [], [], [], [], none⟩ :=
  signTxProposal_failClosed { testEnv with checkTxProposal := fun _ _ => false }
    (some soloWallet) c1txp soloWallet [] (by decide) rfl rfl

/-- C2: for every proposal that passes verification, `signTxProposal` derives
the input key exactly once per unique derivation path, the flattened
signature list is sorted strictly ascending by input index with one signature
per input (given bitcore's `getSignatures` yields exactly one signature per
input overall), and that ordered list is submitted. -/
theorem signTxProposal_ordered (env : Env) (storage : Option WalletData) (txp : Txp)
    (data : WalletData) (evs : List Event)
    (hcid : txp.creatorId ≠ "")
    (hlc : loadAndCheck env storage = .ok data evs)
    (hchk : env.checkTxProposal data txp = true)
    (hperm : ((signFlat env data txp).map fun s => s.inputIndex).Perm
      (List.range txp.inputs.length)) :
    (signTxProposal env storage txp).derivedPaths.Nodup ∧
    (∀ p, p ∈ (signTxProposal env storage txp).derivedPaths ↔
      p ∈ txp.inputs.map fun i => i.path) ∧
    ((signTxProposal env storage txp).sortedSigObjs.map fun s => s.inputIndex) =
      List.range txp.inputs.length ∧
    (signTxProposal env storage txp).signedSigs =
      (signTxProposal env storage txp).sortedSigObjs.map
        (fun s => env.crypto.toDerHex s.signature) ∧
    (signTxProposal env storage txp).signedSigs.length = txp.inputs.length ∧
    (signTxProposal env storage txp).posted =
      some ("/v1/txproposals/" ++ txp.id ++ "/signatures/",
        (signTxProposal env storage txp).signedSigs) := by
  have hout : signTxProposal env storage txp =
      ⟨(match doRequestOutcome env.crypto env.postResp with
         | .err e => .err e
         | .ok _ => .ok ()),
       evs ++ [.post ("/v1/txproposals/" ++ txp.id ++ "/signatures/")],
       uniqueFirst (txp.inputs.map fun i => i.path),
       List.insertionSort sigLE (signFlat env data txp),
       (List.insertionSort sigLE (signFlat env data txp)).map
         (fun s => env.crypto.toDerHex s.signature),
       some ("/v1/txproposals/" ++ txp.id ++ "/signatures/",
         (List.insertionSort sigLE (signFlat env data txp)).map
           (fun s => env.crypto.toDerHex s.signature))⟩ := by
    unfold signTxProposal
    rw [if_neg hcid, hlc]
    simp [hchk]
  have hsorted := sorted_perm_range (signFlat env data txp) txp.inputs.length hperm
  have hslen : (List.insertionSort sigLE (signFlat env data txp)).length =
      txp.inputs.length := by
    have hl := congrArg List.length hsorted
    simpa using hl
  rw [hout]
  refine ⟨uniqueFirst_nodup _, fun p => mem_uniqueFirst p _, hsorted, rfl, ?_, rfl⟩
  simpa using hslen

/-- A proposal with three inputs over two distinct derivation paths. -/
def c2txp : Txp :=
  { id := "t2", creatorId := "c2", toAddress := "addr", amount := 7,
    changeAddress := ⟨"chg"⟩, requiredSignatures := 1,
    inputs := [⟨"a", []⟩, ⟨"b", []⟩, ⟨"a", []⟩],
    message := none, encryptedMessage := none, actions := [] }

/-- An oracle whose `getSignatures` signs inputs 0 and 2 with the key for
path `a` and input 1 with the key for path `b`. -/
def c2env : Env :=
  { testEnv with getSignatures := fun _ priv =>
      if priv = "priv-XK-a" then [⟨0, "s0"⟩, ⟨2, "s2"⟩] else [⟨1, "s1"⟩] }

theorem signTxProposal_ordered_witness :
    (signTxProposal c2env (some soloWallet) c2txp).derivedPaths.Nodup ∧
    ((signTxProposal c2env (some soloWallet) c2txp).sortedSigObjs.map
      fun s => s.inputIndex) = List.range c2txp.inputs.length ∧
    (signTxProposal c2env (some soloWallet) c2txp).signedSigs.length =
      c2txp.inputs.length ∧
    (signTxProposal c2env (some soloWallet) c2txp).posted =
      some ("/v1/txproposals/" ++ c2txp.id ++ "/signatures/",
        (signTxProposal c2env (some soloWallet) c2txp).signedSigs) := by
  have h := signTxProposal_ordered c2env (some soloWallet) c2txp soloWallet []
    (by decide) rfl rfl (by decide)
  exact ⟨h.1, h.2.2.1, h.2.2.2.2.1, h.2.2.2.2.2⟩

/-- C3: when the loaded wallet has `n > 1` and a public key ring shorter than
`n`, `_loadAndCheck` fetches the server's copayer list and runs
`checkCopayers`: on failure it fails with a `ServerCompromised` error and
nothing is saved; on success the returned public key ring is adopted and
persisted before the operation proceeds. -/
theorem loadAndCheck_repair (env : Env) (data : WalletData) (r : List String) (k : Nat)
    (w : SvWallet) (pend : List Txp) (raw : ErrBody)
    (hr : data.publicKeyRing = some r) (hn : data.n = some k)
    (h1 : 1 < k) (hlen : r.length < k)
    (hresp : env.walletsResp = .resp 200 ⟨w, pend⟩ raw)
    (hst : w.status = "complete") :
    (env.checkCopayers w.copayers data.walletPrivKey data.xPrivKey (some k) = false →
      loadAndCheck env (some data) =
        .fail (.serverCompromised
            "Copayers in the wallet could not be verified to have known the wallet secret")
          [.get "/v1/wallets/"]) ∧
    (env.checkCopayers w.copayers data.walletPrivKey data.xPrivKey (some k) = true →
      env.saveErr = none →
      loadAndCheck env (some data) =
        .ok { data with publicKeyRing := some (w.copayers.map fun c => c.xPubKey) }
          [.get "/v1/wallets/",
           .save { data with publicKeyRing := some (w.copayers.map fun c => c.xPubKey) }]) := by
  have hincomplete : (nGt1 data && !pkrComplete data) = true := by
    have hne : (r.length == k) = false := by
      simp [Nat.ne_of_lt hlen]
    simp [nGt1, pkrComplete, hn, hr, h1, hne]
  have hlc : loadAndCheck env (some data) = tryToComplete env data := by
    unfold loadAndCheck
    simp [hincomplete]
  constructor
  · intro hc
    rw [hlc]
    unfold tryToComplete
    rw [hresp]
    simp [doRequestOutcome, hst, hn, hc]
  · intro hc hsave
    rw [hlc]
    unfold tryToComplete
    rw [hresp]
    simp [doRequestOutcome, hst, hn, hc, hsave]

/-- An oracle whose server reports a complete wallet with two copayers but
whose `checkCopayers` rejects the list. -/
def c3badEnv : Env :=
  { testEnv with
    walletsResp := .resp 200 ⟨⟨"complete", [⟨"xpub-A"⟩, ⟨"xpub-B"⟩]⟩, []⟩ (.str "")
    checkCopayers := fun _ _ _ _ => false }

/-- An oracle whose server reports a complete wallet with two copayers and
whose `checkCopayers` accepts the list. -/
def c3goodEnv : Env :=
  { testEnv with
    walletsResp := .resp 200 ⟨⟨"complete", [⟨"xpub-A"⟩, ⟨"xpub-B"⟩]⟩, []⟩ (.str "") }

theorem loadAndCheck_repair_witness :
    loadAndCheck c3badEnv (some incompleteWallet) =
      .fail (.serverCompromised
          "Copayers in the wallet could not be verified to have known the wallet secret")
        [.get "/v1/wallets/"] ∧
    loadAndCheck c3goodEnv (some incompleteWallet) =
      .ok { incompleteWallet with publicKeyRing := some ["xpub-A", "xpub-B"] }
        [.get "/v1/wallets/",
         .save { incompleteWallet with publicKeyRing := some ["xpub-A", "xpub-B"] }] :=
  ⟨(loadAndCheck_repair c3badEnv incompleteWallet ["xpub-B"] 2
      ⟨"complete", [⟨"xpub-A"⟩, ⟨"xpub-B"⟩]⟩ [] (.str "")
      rfl rfl (by decide) (by decide) rfl rfl).1 rfl,
   (loadAndCheck_repair c3goodEnv incompleteWallet ["xpub-B"] 2
      ⟨"complete", [⟨"xpub-A"⟩, ⟨"xpub-B"⟩]⟩ [] (.str "")
      rfl rfl (by decide) (by decide) rfl rfl).2 rfl rfl⟩

/-- C4: the signed message of an outbound request is exactly
`lowercase(method) + "|" + url-path + "|" + JSON.stringify(body)`; a `get`
request is signed with the read-only key and any other request with the
read-write key, and when the relevant key is absent (`Option.map` over
`none`) the request is still built, just without a signature. -/
theorem doRequest_signing (c : Crypto) (baseUrl basePath method url : String) (args : Json)
    (data : WalletData) :
    (doRequestBuild c baseUrl basePath method url args data).xSignature =
      (if method = "get" then data.roPrivKey else data.rwPrivKey).map
        (fun k => c.signMessage
          (method.toLower ++ "|" ++ url ++ "|" ++ Json.stringify args) k) ∧
    (doRequestBuild c baseUrl basePath method url args data).method = method ∧
    (doRequestBuild c baseUrl basePath method url args data).url = baseUrl ++ url ∧
    (doRequestBuild c baseUrl basePath method url args data).xIdentity = data.copayerId ∧
    (doRequestBuild c baseUrl basePath method url args data).body = args := by
  unfold doRequestBuild signRequest
  by_cases h : method = "get" <;> simp [h]

/-- C5 counterexample: `getBalance` on an incomplete 2-of-2 wallet with an
otherwise healthy server does fail (with `Wallet Incomplete` from the repair
flow it invoked) and the balance endpoint is never queried, contradicting
the claim that read-only operations proceed on an incomplete wallet. -/
theorem getBalance_incomplete_fails :
    getBalance pendingEnv (some incompleteWallet) =
      ⟨.err (.stringErr "Wallet Incomplete"), [.get "/v1/wallets/"]⟩ := rfl

/-- C5 amended: `getStatus` (which uses the plain `_load`) proceeds on any
wallet, complete or not; `getBalance`, `getMainAddresses` and
`getTxProposals` go through `_loadAndCheck` and fail whenever it fails,
e.g. when the repair flow is triggered by an incomplete ring and does not
succeed. -/
theorem readOnlyOps_contract (env : Env) (data : WalletData) (w : WalletsBody)
    (raw : ErrBody) (e : ApiError) (evs : List Event) :
    (env.walletsResp = .resp 200 w raw →
      getStatus env (some data) =
        ⟨.ok ({ w with pendingTxps := List.map (processTxp env.crypto data.sharedEncryptingKey) w.pendingTxps }, data.copayerId),
          [.get "/v1/wallets/"]⟩) ∧
    (loadAndCheck env (some data) = .fail e evs →
      getBalance env (some data) = ⟨.err e, evs⟩ ∧
      getMainAddresses env (some data) false = ⟨.err e, evs⟩ ∧
      getTxProposals env (some data) false = ⟨.err e, evs⟩) := by
  constructor
  · intro h
    unfold getStatus
    rw [h]
    simp [doRequestOutcome]
  · intro h
    unfold getBalance getMainAddresses getTxProposals
    rw [h]
    exact ⟨rfl, rfl, rfl⟩

theorem readOnlyOps_contract_witness :
    getStatus pendingEnv (some incompleteWallet) =
      ⟨.ok (⟨⟨"pending", []⟩, []⟩, some "cid-xpub-B"), [.get "/v1/wallets/"]⟩ ∧
    getBalance pendingEnv (some incompleteWallet) =
      ⟨.err (.stringErr "Wallet Incomplete"), [.get "/v1/wallets/"]⟩ ∧
    getMainAddresses pendingEnv (some incompleteWallet) false =
      ⟨.err (.stringErr "Wallet Incomplete"), [.get "/v1/wallets/"]⟩ :=
  ⟨(readOnlyOps_contract pendingEnv incompleteWallet ⟨⟨"pending", []⟩, []⟩ (.str "")
      (.stringErr "Wallet Incomplete") [.get "/v1/wallets/"]).1 rfl,
   ((readOnlyOps_contract pendingEnv incompleteWallet ⟨⟨"pending", []⟩, []⟩ (.str "")
      (.stringErr "Wallet Incomplete") [.get "/v1/wallets/"]).2 rfl).1,
   ((readOnlyOps_contract pendingEnv incompleteWallet ⟨⟨"pending", []⟩, []⟩ (.str "")
      (.stringErr "Wallet Incomplete") [.get "/v1/wallets/"]).2 rfl).2.1⟩

/-- The wallet state `import` reconstructs from a full export whose master
key is `xk` and remaining ring is `r0` (mirrors the record built in
`importData` plus the network detection of `importFinish`). -/
def reimported (c : Crypto) (xk : String) (r0 : List String) (m0 : Option Nat)
    (shared : Option String) : WalletData :=
  let xPubKey := c.xPubOf xk
  { copayerId := some (c.xPubToCopayerId xPubKey)
    xPrivKey := some xk
    publicKeyRing := some (xPubKey :: r0)
    network := some (if xPubKey.take 4 = "tpub" then "testnet" else "livenet")
    m := m0
    n := some (xPubKey :: r0).length
    roPrivKey := some (c.deriveWIF xk "m/1/0")
    rwPrivKey := some (c.deriveWIF xk "m/1/1")
    walletPrivKey := none
    sharedEncryptingKey := shared }

/-- C6: for every complete wallet state (consistent `copayerId`, own xpub
occurring once in the ring), `export` with access `full` followed by
`import` on a fresh store reconstructs a wallet state with the same
`copayerIdentifier`, `m` and `n`, and a public key ring that is the original
one with the importer's own extended public key re-inserted first. -/
theorem export_import_roundtrip (env1 env2 : Env) (data : WalletData) (xk : String)
    (r : List String) (k mv : Nat)
    (hcr : env2.crypto = env1.crypto)
    (hsave : env2.saveErr = none)
    (hx : data.xPrivKey = some xk) (hxne : xk ≠ "")
    (hr : data.publicKeyRing = some r) (hn : data.n = some k) (hlen : r.length = k)
    (hm : data.m = some mv) (hmv : mv ≠ 0)
    (hcount : r.count (env1.crypto.xPubOf xk) = 1)
    (hcid : data.copayerId = some (env1.crypto.xPubToCopayerId (env1.crypto.xPubOf xk)))
    (hcidne : env1.crypto.xPubToCopayerId (env1.crypto.xPubOf xk) ≠ "") :
    exportOp env1 (some data) .full =
      ⟨.ok [ExportVal.str xk, ExportVal.num mv,
            .strList (r.filter fun x => x ≠ env1.crypto.xPubOf xk),
            optStrVal data.sharedEncryptingKey], []⟩ ∧
    importData env2 none
        [ExportVal.str xk, ExportVal.num mv,
         .strList (r.filter fun x => x ≠ env1.crypto.xPubOf xk),
         optStrVal data.sharedEncryptingKey] =
      ⟨.ok (reimported env1.crypto xk (r.filter fun x => x ≠ env1.crypto.xPubOf xk)
              (some mv) data.sharedEncryptingKey),
       [.save (reimported env1.crypto xk (r.filter fun x => x ≠ env1.crypto.xPubOf xk)
              (some mv) data.sharedEncryptingKey)]⟩ ∧
    (reimported env1.crypto xk (r.filter fun x => x ≠ env1.crypto.xPubOf xk)
        (some mv) data.sharedEncryptingKey).copayerId = data.copayerId ∧
    (reimported env1.crypto xk (r.filter fun x => x ≠ env1.crypto.xPubOf xk)
        (some mv) data.sharedEncryptingKey).m = data.m ∧
    (reimported env1.crypto xk (r.filter fun x => x ≠ env1.crypto.xPubOf xk)
        (some mv) data.sharedEncryptingKey).n = data.n ∧
    (reimported env1.crypto xk (r.filter fun x => x ≠ env1.crypto.xPubOf xk)
        (some mv) data.sharedEncryptingKey).publicKeyRing =
      some (env1.crypto.xPubOf xk :: r.filter fun x => x ≠ env1.crypto.xPubOf xk) ∧
    (env1.crypto.xPubOf xk :: r.filter fun x => x ≠ env1.crypto.xPubOf xk).Perm r := by
  obtain ⟨hflen, hfperm⟩ := filter_of_count_one (env1.crypto.xPubOf xk) r hcount
  have hcomplete : (nGt1 data && !pkrComplete data) = false := by
    simp [pkrComplete, hr, hn, hm, truthyNat, hmv, hlen]
  have hlc : loadAndCheck env1 (some data) = .ok data [] := by
    unfold loadAndCheck
    simp [hcomplete]
  refine ⟨?_, ?_, ?_, hm.symm, ?_, rfl, hfperm⟩
  · unfold exportOp
    rw [hlc]
    simp [hx, hr, hm, optNatVal]
  · have hopt : ∀ o : Option String, (optStrVal o).asStr = o := by
      intro o
      cases o <;> rfl
    unfold importData importFinish
    simp [truthyOptStr, hxne, hcidne, hcr, truthyNat, hmv, hsave, reimported,
      ExportVal.asStr, ExportVal.asNat, ExportVal.asList, hopt]
    exact hopt data.sharedEncryptingKey
  · simp [reimported, hcid]
  · simp only [reimported, List.length_cons]
    rw [hn]
    exact congrArg some (by omega)

/-- A complete 2-of-2 wallet whose own xpub is the second ring entry. -/
def c6data : WalletData :=
  { copayerId := some "cid-xpub-XK"
    xPrivKey := some "XK"
    publicKeyRing := some ["other", "xpub-XK"]
    network := some "livenet"
    m := some 2
    n := some 2
    roPrivKey := some "ro"
    rwPrivKey := some "rw"
    walletPrivKey := some "wpk"
    sharedEncryptingKey := some "sek" }

theorem export_import_roundtrip_witness :
    exportOp testEnv (some c6data) .full =
      ⟨.ok [ExportVal.str "XK", ExportVal.num 2, .strList ["other"],
            ExportVal.str "sek"], []⟩ ∧
    importData testEnv none
        [ExportVal.str "XK", ExportVal.num 2, .strList ["other"], ExportVal.str "sek"] =
      ⟨.ok (reimported testCrypto "XK" ["other"] (some 2) (some "sek")),
       [.save (reimported testCrypto "XK" ["other"] (some 2) (some "sek"))]⟩ ∧
    (reimported testCrypto "XK" ["other"] (some 2) (some "sek")).copayerId =
      c6data.copayerId ∧
    (reimported testCrypto "XK" ["other"] (some 2) (some "sek")).n = c6data.n ∧
    (["xpub-XK", "other"] : List String).Perm ["other", "xpub-XK"] := by
  have h := export_import_roundtrip testEnv testEnv c6data "XK" ["other", "xpub-XK"] 2 2
    rfl rfl rfl (by decide) rfl rfl (by decide) rfl (by decide) (by decide) rfl (by decide)
  exact ⟨h.1, h.2.1, h.2.2.1, h.2.2.2.2.1, h.2.2.2.2.2.2⟩

/-- An oracle whose wallet endpoint answers 500 with the raw body `oops`. -/
def c7env : Env :=
  { testEnv with walletsResp := .resp 500 okWalletsBody (.str "oops") }

/-- C7 (code bug): `_parseError` does turn the non-200 body into a structured
`{code, message}` error with generic defaults, but `getStatus`'s callback
runs `_processTxps(result.pendingTxps, ..)` before checking `err`, so on an
error response (`result` undefined) it raises a TypeError instead of
surfacing the error as the operation's error result. -/
theorem getStatus_swallows_error :
    getStatus c7env (some soloWallet) =
      ⟨.thrown "TypeError: cannot read pendingTxps of undefined", [.get "/v1/wallets/"]⟩ ∧
    doRequestOutcome c7env.crypto c7env.walletsResp =
      .err (.serverError "ERROR" "oops") := ⟨rfl, rfl⟩

/-- C8 counterexample: on repair, the ring of a 2-of-2 wallet whose local
ring was `["xpub-B"]` becomes the server's list `["xpub-A", "xpub-B"]`.  Had
the mutation been an append, the old ring would survive as a prefix, but the
length-1 prefix of the new ring differs, so an existing entry was replaced. -/
theorem ringReplaced_cex :
    tryToComplete c3goodEnv incompleteWallet =
      .ok { incompleteWallet with publicKeyRing := some ["xpub-A", "xpub-B"] }
        [.get "/v1/wallets/",
         .save { incompleteWallet with publicKeyRing := some ["xpub-A", "xpub-B"] }] ∧
    incompleteWallet.publicKeyRing = some ["xpub-B"] ∧
    (["xpub-A", "xpub-B"] : List String).take 1 ≠ ["xpub-B"] :=
  ⟨rfl, rfl, by decide⟩

/-- C8 amended: `_initData` initializes the ring to the single own key, and
the repair flow replaces the ring wholesale with the server's
`checkCopayers`-verified copayer list; when that list has exactly `n`
entries (the property 4.4 ascribes to `checkCopayers`), the adopted ring has
length `n`, so `publicKeyRing.length <= n` is preserved. -/
theorem tryToComplete_replaces_ring (env : Env) (data : WalletData) (cs : List SvCopayer)
    (pend : List Txp) (raw : ErrBody) (k : Nat)
    (hresp : env.walletsResp = .resp 200 ⟨⟨"complete", cs⟩, pend⟩ raw)
    (hn : data.n = some k)
    (hc : env.checkCopayers cs data.walletPrivKey data.xPrivKey (some k) = true)
    (hcs : cs.length = k)
    (hsave : env.saveErr = none)
    (net wk : String) (m0 n0 : Option Nat) :
    tryToComplete env data =
      .ok { data with publicKeyRing := some (cs.map fun c => c.xPubKey) }
        [.get "/v1/wallets/",
         .save { data with publicKeyRing := some (cs.map fun c => c.xPubKey) }] ∧
    (cs.map fun c => c.xPubKey).length ≤ k ∧
    (initData env net wk m0 n0).publicKeyRing =
      some [env.crypto.xPubOf env.freshXPrivKey] := by
  refine ⟨?_, by simp [hcs], rfl⟩
  unfold tryToComplete
  rw [hresp]
  simp [doRequestOutcome, hn, hc, hsave]

theorem tryToComplete_replaces_ring_witness :
    tryToComplete c3goodEnv incompleteWallet =
      .ok { incompleteWallet with publicKeyRing := some ["xpub-A", "xpub-B"] }
        [.get "/v1/wallets/",
         .save { incompleteWallet with publicKeyRing := some ["xpub-A", "xpub-B"] }] ∧
    (([⟨"xpub-A"⟩, ⟨"xpub-B"⟩] : List SvCopayer).map fun c => c.xPubKey).length ≤ 2 ∧
    (initData c3goodEnv "livenet" "wk" none none).publicKeyRing = some ["xpub-freshX"] :=
  tryToComplete_replaces_ring c3goodEnv incompleteWallet [⟨"xpub-A"⟩, ⟨"xpub-B"⟩] []
    (.str "") 2 rfl rfl rfl (by decide) rfl "livenet" "wk" none none

/-- The `args` object of `sendTxProposal` for a given read-write key:
encrypted message, and the proposal-hash signature over
`(toAddress, amount, ciphertext)`. -/
def proposalArgsOf (c : Crypto) (toAddress : String) (amount : Nat)
    (message : Option String) (shared : Option String) (rk : String) : Json :=
  let msgCt := encryptMessageJs c message shared
  proposalArgsJson toAddress amount msgCt
    (c.signMessage (c.getProposalHash toAddress amount msgCt) rk)

/-- C9: `sendTxProposal` fails with a no-signing-key error and sends nothing
when the read-write key is absent; when present it POSTs the encrypted
message, the signature (under the read-write key) of the hash over
`(toAddress, amount, ciphertext)` as `proposalSignature`, and the request
additionally carries the transport-level signature under the same key. -/
theorem sendTxProposal_contract (env : Env) (storage : Option WalletData)
    (toAddress : String) (amount : Nat) (message : Option String)
    (data : WalletData) (evs : List Event)
    (hlc : loadAndCheck env storage = .ok data evs) :
    (data.rwPrivKey = none →
      sendTxProposal env storage toAddress amount message =
        ⟨.err (.stringErr "No key to generate proposals"), evs, none⟩) ∧
    (∀ rk, data.rwPrivKey = some rk →
      sendTxProposal env storage toAddress amount message =
        ⟨(match doRequestOutcome env.crypto env.postResp with
           | .err e => JsRes.err e
           | .ok _ => .ok ()),
         evs ++ [.post "/v1/txproposals/"],
         some (doRequestBuild env.crypto env.baseUrl env.basePath "post" "/v1/txproposals/"
           (proposalArgsOf env.crypto toAddress amount message data.sharedEncryptingKey rk)
           data)⟩ ∧
      (doRequestBuild env.crypto env.baseUrl env.basePath "post" "/v1/txproposals/"
        (proposalArgsOf env.crypto toAddress amount message data.sharedEncryptingKey rk)
        data).xSignature =
      some (signRequest env.crypto "post" "/v1/txproposals/"
        (proposalArgsOf env.crypto toAddress amount message data.sharedEncryptingKey rk)
        rk)) := by
  constructor
  · intro h
    unfold sendTxProposal
    rw [hlc]
    simp [h]
  · intro rk hrk
    constructor
    · unfold sendTxProposal
      rw [hlc]
      simp [hrk, proposalArgsOf]
    · unfold doRequestBuild
      rw [hrk]
      simp

/-- The 1-of-1 wallet with the read-write key removed. -/
def roWallet : WalletData := { soloWallet with rwPrivKey := none }

theorem sendTxProposal_contract_witness :
    sendTxProposal testEnv (some roWallet) "to" 100 (some "hi") =
      ⟨.err (.stringErr "No key to generate proposals"), [], none⟩ ∧
    sendTxProposal testEnv (some soloWallet) "to" 100 (some "hi") =
      ⟨.ok (), [.post "/v1/txproposals/"],
       some (doRequestBuild testCrypto testEnv.baseUrl testEnv.basePath "post"
         "/v1/txproposals/" (proposalArgsOf testCrypto "to" 100 (some "hi") (some "sek") "rw")
         soloWallet)⟩ ∧
    (doRequestBuild testCrypto testEnv.baseUrl testEnv.basePath "post" "/v1/txproposals/"
      (proposalArgsOf testCrypto "to" 100 (some "hi") (some "sek") "rw")
      soloWallet).xSignature =
      some (signRequest testCrypto "post" "/v1/txproposals/"
        (proposalArgsOf testCrypto "to" 100 (some "hi") (some "sek") "rw") "rw") :=
  ⟨(sendTxProposal_contract testEnv (some roWallet) "to" 100 (some "hi") roWallet []
      rfl).1 rfl,
   ((sendTxProposal_contract testEnv (some soloWallet) "to" 100 (some "hi") soloWallet []
      rfl).2 "rw" rfl).1,
   ((sendTxProposal_contract testEnv (some soloWallet) "to" 100 (some "hi") soloWallet []
      rfl).2 "rw" rfl).2⟩

/-- C10: when storage already contains a wallet, `createWallet`, `joinWallet`
and `import` each fail with an error before contacting the server or calling
save (empty effect trace), so an existing stored wallet is never
overwritten. -/
theorem noWalletOverwrite (env : Env) (w : WalletData) (m n : Nat) (network : String)
    (secret : String) (inData : List ExportVal) :
    ((createWallet env (some w) m n network).res.isErr = true ∧
      (createWallet env (some w) m n network).events = []) ∧
    joinWallet env (some w) secret =
      ⟨.err (.stringErr "Storage already contains a wallet"), []⟩ ∧
    importData env (some w) inData =
      ⟨.err (.stringErr "Storage already contains a wallet"), []⟩ := by
  refine ⟨?_, rfl, rfl⟩
  unfold createWallet
  by_cases h : (if network = "" then "livenet" else network) ∈ ["testnet", "livenet"]
  · simp [h, JsRes.isErr]
  · simp [h, JsRes.isErr]

end ZcoinWallet
